import Mathlib

/-!
Shallow embedding of the bounded-time client (`client.go`, `time.go`) of this
repository: the `UnixTime` value type, the 24-byte wire codec for `ClientInfo`,
and the `Client` read protocol (`read`, `tryReset`, `reset`, `updateStaled`,
`GetUnixTime`).  Machine integers are modelled as `Nat`/`Int` with explicit
`% 2^64` / `% 2^32` at the operations where Go's fixed-width arithmetic wraps.
The operating-system effects (semaphore, shared memory, wall clock) and the
`float64`-based `GetClockUncertainty` are supplied by an explicit environment
record `Env`; everything else is translated directly from the Go source.
-/

/-- Two's-complement wrap of an integer into the int64 range; models the
wrap-around of Go's `int64` arithmetic. -/
def wrap64 (x : Int) : Int :=
  (x + 9223372036854775808) % 18446744073709551616 - 9223372036854775808

/-- Reinterpretation of a uint64 bit pattern as int64; models Go's
`int64(v)` conversion for a `uint64` value `v`. -/
def toInt64 (n : Nat) : Int := wrap64 (n : Int)

/-- Mirrors the Go struct `UnixTime { Sec uint64; NSec uint32; Dispersion uint64 }`. -/
structure UnixTime where
  sec : Nat
  nsec : Nat
  dispersion : Nat
deriving DecidableEq

/-- Mirrors `(t *UnixTime) IsEmpty()`: `t.Sec == 0 && t.NSec == 0`. -/
def UnixTime.IsEmpty (t : UnixTime) : Bool :=
  t.sec == 0 && t.nsec == 0

/-- Mirrors `(t *UnixTime) Bounds()`:
`un := t.Sec*1e9 + uint64(t.NSec); return un - t.Dispersion, un + t.Dispersion`
with uint64 addition, multiplication and subtraction wrapping mod `2^64`. -/
def UnixTime.Bounds (t : UnixTime) : Nat × Nat :=
  let un := (t.sec * 1000000000 + t.nsec) % 18446744073709551616
  (((un + 18446744073709551616) - t.dispersion) % 18446744073709551616,
   (un + t.dispersion) % 18446744073709551616)

/-- Mirrors `(t *UnixTime) Sub(other UnixTime) int64`:
the borrow branch (`v.NSec += 1e9; v.Sec -= 1`) wraps at uint32 / uint64 width,
the `int64` conversions reinterpret the unsigned values, and every `int64`
subtraction, multiplication and addition wraps mod `2^64`. -/
def UnixTime.Sub (t other : UnixTime) : Int :=
  let vNSec : Nat :=
    if other.nsec > t.nsec then (t.nsec + 1000000000) % 4294967296 else t.nsec
  let vSec : Nat :=
    if other.nsec > t.nsec then (t.sec + 18446744073709551615) % 18446744073709551616
    else t.sec
  let sd : Int := wrap64 (wrap64 (toInt64 vSec - toInt64 other.sec) * 1000000000)
  let nsd : Int := wrap64 ((vNSec : Int) - (other.nsec : Int))
  wrap64 (sd + nsd)

/-- Big-endian byte list of the `k`-byte unsigned value `v`; models
`binary.BigEndian.PutUint16/PutUint32/PutUint64`. -/
def beBytes : Nat → Nat → List Nat
  | 0, _ => []
  | k + 1, v => (v / 256 ^ k) % 256 :: beBytes k v

/-- Big-endian value of a byte list; models
`binary.BigEndian.Uint16/Uint32/Uint64` applied to the corresponding slice. -/
def beVal (l : List Nat) : Nat :=
  l.foldl (fun a b => a * 256 + b) 0

/-- Mirrors the Go struct `ClientInfo`; `Count` is uint16, `Dispersion` and
`Sec` are uint64, `NSec` is uint32. -/
structure ClientInfo where
  valid : Bool
  locked : Bool
  count : Nat
  dispersion : Nat
  sec : Nat
  nsec : Nat
deriving DecidableEq

/-- Mirrors `(c *ClientInfo) Marshal(buf []byte)`: panics (modelled as `none`)
when `len(buf) < 24`, otherwise writes the flags, `Count` (offset 2),
`Dispersion` (offset 4), `Sec` (offset 12) and `NSec` (offset 20) in
big-endian order and returns `buf[:24]`, whose 24 bytes are exactly the
encoding (every byte of the returned slice is overwritten). -/
def ClientInfo.Marshal (c : ClientInfo) (buf : List Nat) : Option (List Nat) :=
  if buf.length < 24 then none
  else
    some ((if c.valid then 1 else 0) :: (if c.locked then 1 else 0) ::
      (beBytes 2 c.count ++ (beBytes 8 c.dispersion ++ (beBytes 8 c.sec ++ beBytes 4 c.nsec))))

/-- Mirrors `UnmarshalClientInfo(data []byte, c *ClientInfo)`: panics
(modelled as `none`) when `len(data) != 24`, otherwise decodes the flags
(a byte equal to `1` means true) and the big-endian fields. -/
def UnmarshalClientInfo (data : List Nat) : Option ClientInfo :=
  if data.length = 24 then
    some { valid := decide (data.getD 0 0 = 1)
           locked := decide (data.getD 1 0 = 1)
           count := beVal ((data.drop 2).take 2)
           dispersion := beVal ((data.drop 4).take 8)
           sec := beVal ((data.drop 12).take 8)
           nsec := beVal ((data.drop 20).take 4) }
  else none

/-- Mirrors the constant `staleThresholdNanoseconds int64 = 300000000`. -/
def staleThresholdNanoseconds : Int := 300000000

/-- Mirrors the constant `ClientInfoSharedMemoryBufferSize int = 48`. -/
def ClientInfoSharedMemoryBufferSize : Nat := 48

/-- Error values returned by the client; `ipc tag` stands for the distinct
operating-system errors surfaced by the semaphore and shared-memory calls. -/
inductive GoError where
  | notReady
  | stopped
  | ipc (tag : Nat)
deriving DecidableEq

/-- Which step of `reset` fails, if any: `sem_open`, `shm.Get`, `shm.At`,
or none (`ok`). -/
inductive IpcStep where
  | ok
  | semOpenFail
  | shmGetFail
  | shmAtFail
deriving DecidableEq

/-- Mirrors the anonymous `last` struct inside `Client`. -/
structure ClientLast where
  count : Nat
  time : UnixTime
deriving DecidableEq

/-- Mirrors the mutable fields of the Go `Client` that the read protocol
touches: the `last` observation, the `resetRequired` flag, and whether the
semaphore handle (`mutex`) and the mapped segment (`data`) are currently
held (`true`) or nil (`false`). -/
structure Client where
  last : ClientLast
  resetRequired : Bool
  mutex : Bool
  data : Bool
deriving DecidableEq

/-- Environment supplying the outcomes of the operating-system interactions of
one `GetUnixTime` call: whether a `reset` attempt succeeds, whether
`mutex.Wait` / `mutex.Post` fail, the 48 bytes of the shared segment as they
are copied into `c.buf`, the wall-clock sample of `getSysClockTime`, and the
value computed by `GetClockUncertainty` on a non-negative elapsed time.  The
last is an oracle because the source computes it with `float64` arithmetic
(`float64(nanosecond*MaxClockDrift) / float64(1e9)` truncated to uint64),
which this embedding does not model bit-for-bit. -/
structure Env where
  resetStep : IpcStep
  waitErr : Bool
  postErr : Bool
  segment : List Nat
  nowSec : Nat
  nowNSec : Nat
  uct : Nat → Nat

/-- Result of the Go `Client.read`: either the payload slice together with the
clock sample, an error, or a runtime panic. -/
inductive ReadOut where
  | ok (data : List Nat) (sec : Nat) (nsec : Nat)
  | fail (e : GoError)
  | panic (msg : String)
deriving DecidableEq

/-- Result of the Go `Client.GetUnixTime`: a returned `(UnixTime, error)` pair
(mirroring each `return` site literally) or a runtime panic. -/
inductive Outcome where
  | ret (t : UnixTime) (err : Option GoError)
  | panic (msg : String)
deriving DecidableEq

/-- Mirrors `getDispersion(info ClientInfo, sec uint64, nsec uint32)`:
`ns := current.Sub(ref)`; panic (modelled as `none`) when `ns < 0`; otherwise
`info.Dispersion + GetClockUncertainty(ns)` with uint64 addition wrapping mod
`2^64`.  The clock-uncertainty function is the oracle `uct`. -/
def getDispersion (uct : Nat → Nat) (info : ClientInfo) (sec nsec : Nat) : Option Nat :=
  if UnixTime.Sub ⟨sec, nsec, 0⟩ ⟨info.sec, info.nsec, 0⟩ < 0 then none
  else
    some ((info.dispersion +
      uct (UnixTime.Sub ⟨sec, nsec, 0⟩ ⟨info.sec, info.nsec, 0⟩).toNat) %
      18446744073709551616)

/-- Mirrors `reset(c *Client)`: first `c.Close()` tears down both handles
(errors discarded), then the semaphore, `shm.Get` and `shm.At` are attempted
in order; the handles are reassigned only when every step succeeded, so a
failing step leaves both handles nil. -/
def reset (env : Env) (c : Client) : Option GoError × Client :=
  let c1 : Client := { c with mutex := false, data := false }
  match env.resetStep with
  | .ok => (none, { c1 with mutex := true, data := true })
  | .semOpenFail => (some (.ipc 0), c1)
  | .shmGetFail => (some (.ipc 1), c1)
  | .shmAtFail => (some (.ipc 2), c1)

/-- Mirrors `(c *Client) tryReset()`: when `resetRequired` is set it is
cleared, `reset` is attempted, and on failure the flag is set again and the
error returned. -/
def Client.tryReset (env : Env) (c : Client) : Option GoError × Client :=
  if c.resetRequired then
    match reset env { c with resetRequired := false } with
    | (some e, c2) => (some e, { c2 with resetRequired := true })
    | (none, c2) => (none, c2)
  else (none, c)

/-- The 2-byte big-endian length prefix `binary.BigEndian.Uint16(c.buf)` of
the copied segment. -/
def segmentDatalen (seg : List Nat) : Nat :=
  beVal (seg.take 2)

/-- Body of `(c *Client) read()` after a successful `tryReset`: the
`mutex.Wait` call, the clock snapshot, the copy, the length-prefix dispatch
and the return paths.  After a successful `Wait`, the Go function installs
`defer func() { err = c.mutex.Post() }()`, which OVERWRITES the named result
`err` on every subsequent return path: when the length prefix is zero and
`Post` succeeds, the function returns a nil payload with a NIL error (the
written `ErrNotReady` is clobbered); when `Post` fails its error replaces
whatever was returned.  Slicing `c.buf[2 : 2+datalen]` panics when
`2 + datalen` exceeds the 48-byte buffer. -/
def Client.criticalRead (env : Env) (c1 : Client) : ReadOut × Client :=
  if env.waitErr then (.fail (.ipc 3), c1)
  else
    if segmentDatalen env.segment = 0 then
      if env.postErr then (.fail (.ipc 4), c1)
      else (.ok [] 0 0, c1)
    else
      if 2 + segmentDatalen env.segment ≤ 48 then
        if env.postErr then (.fail (.ipc 4), c1)
        else (.ok ((env.segment.drop 2).take (segmentDatalen env.segment))
          env.nowSec env.nowNSec, c1)
      else (.panic "slice bounds out of range", c1)

/-- Mirrors `(c *Client) read()`: a failing `tryReset` returns its error
before anything is read, otherwise the critical section runs. -/
def Client.read (env : Env) (c : Client) : ReadOut × Client :=
  match c.tryReset env with
  | (some e, c1) => (.fail e, c1)
  | (none, c1) => c1.criticalRead env

/-- Mirrors `(c *Client) updateStaled(ut UnixTime, count uint16)`. -/
def Client.updateStaled (c : Client) (ut : UnixTime) (count : Nat) : Bool :=
  if c.last.count ≠ count then false
  else if c.last.time.IsEmpty then false
  else decide (ut.Sub c.last.time > staleThresholdNanoseconds)

/-! The body of the Go `GetUnixTime` is one function; it is embedded here as a
chain of step functions, one per decision point of the source, in source
order: the staleness check and `last` update, the dispersion computation, the
validity check, the decode, and the read dispatch.  Composed they are the Go
function line for line. -/

/-- Tail of `GetUnixTime` from the `updateStaled` check: `ErrStopped` with
`resetRequired` when stale, otherwise the `last` observation is updated when
the count advanced and the derived time `ut = ⟨sec, nsec, d⟩` is returned. -/
def Client.staleStep (c1 : Client) (sec nsec : Nat) (info : ClientInfo) (d : Nat) :
    Outcome × Client :=
  if c1.updateStaled ⟨sec, nsec, d⟩ info.count then
    (.ret ⟨0, 0, 0⟩ (some .stopped), { c1 with resetRequired := true })
  else if c1.last.count ≠ info.count then
    (.ret ⟨sec, nsec, d⟩ none, { c1 with last := ⟨info.count, ⟨sec, nsec, d⟩⟩ })
  else
    (.ret ⟨sec, nsec, d⟩ none, c1)

/-- Tail of `GetUnixTime` from the `getDispersion` call; `r` is the result of
`getDispersion` (`none` models its panic on a negative elapsed time, which
propagates). -/
def Client.dispersionStep (c1 : Client) (sec nsec : Nat) (info : ClientInfo)
    (r : Option Nat) : Outcome × Client :=
  match r with
  | none => (.panic "invalid client info and clock time", c1)
  | some d => c1.staleStep sec nsec info d

/-- Tail of `GetUnixTime` from the `!info.Valid || !info.Locked` check:
`ErrNotReady` with `resetRequired` when the record is not trustworthy. -/
def Client.validStep (env : Env) (c1 : Client) (sec nsec : Nat)
    (info : ClientInfo) : Outcome × Client :=
  if !info.valid || !info.locked then
    (.ret ⟨0, 0, 0⟩ (some .notReady), { c1 with resetRequired := true })
  else
    c1.dispersionStep sec nsec info (getDispersion env.uct info sec nsec)

/-- Tail of `GetUnixTime` from the `UnmarshalClientInfo` call, which panics
on a payload whose length is not 24. -/
def Client.decodeStep (env : Env) (c1 : Client) (data : List Nat)
    (sec nsec : Nat) : Outcome × Client :=
  match UnmarshalClientInfo data with
  | none => (.panic "invalid input", c1)
  | some info => c1.validStep env sec nsec info

/-- Mirrors `(c *Client) GetUnixTime()`: dispatch on the result of `read`
(every error return site returns the zero `UnixTime{}` literally, as in the
source), then decode, validate, compute dispersion, and check staleness via
the step functions above. -/
def Client.GetUnixTime (env : Env) (c : Client) : Outcome × Client :=
  match c.read env with
  | (.panic m, c1) => (.panic m, c1)
  | (.fail e, c1) => (.ret ⟨0, 0, 0⟩ (some e), { c1 with resetRequired := true })
  | (.ok data sec nsec, c1) => c1.decodeStep env data sec nsec

/-! Concrete scenarios used by the claim theorems below.  The oracle
`fun n => n * 1000000 / 1000000000` agrees with the source's
`GetClockUncertainty` at every input used in these scenarios: there the
`float64` computation is exact (the products are below `2^53` and the
quotients are exactly representable). -/

/-- Wire payload with `Valid`, `Locked`, `Count = 1`, `Dispersion = 2^64 - 1`,
reference time `(100 s, 0 ns)`. -/
def c1Payload : List Nat :=
  [1, 1, 0, 1, 255, 255, 255, 255, 255, 255, 255, 255,
   0, 0, 0, 0, 0, 0, 0, 100, 0, 0, 0, 0]

/-- Environment for the C1 counterexample: healthy IPC, segment publishing
`c1Payload`, wall clock 1000 ns past the record's reference time. -/
def c1Env : Env :=
  { resetStep := .ok, waitErr := false, postErr := false,
    segment := 0 :: 24 :: c1Payload ++ List.replicate 22 0,
    nowSec := 100, nowNSec := 1000, uct := fun n => n * 1000000 / 1000000000 }

/-- Connected client with no prior sample. -/
def c1Cli : Client :=
  { last := ⟨0, ⟨0, 0, 0⟩⟩, resetRequired := false, mutex := true, data := true }

/-- Wire payload with `Valid`, `Locked`, `Count = 5`, `Dispersion = 3`,
reference time `(100 s, 0 ns)`. -/
def c1WPayload : List Nat :=
  [1, 1, 0, 5, 0, 0, 0, 0, 0, 0, 0, 3, 0, 0, 0, 0, 0, 0, 0, 100, 0, 0, 0, 0]

/-- Environment for the C1 witness: segment publishing `c1WPayload`, wall
clock 1000 ns past the reference time. -/
def c1WEnv : Env :=
  { resetStep := .ok, waitErr := false, postErr := false,
    segment := 0 :: 24 :: c1WPayload ++ List.replicate 22 0,
    nowSec := 100, nowNSec := 1000, uct := fun n => n * 1000000 / 1000000000 }

/-- Connected client with no prior sample (C1 witness). -/
def c1WCli : Client :=
  { last := ⟨0, ⟨0, 0, 0⟩⟩, resetRequired := false, mutex := true, data := true }

/-- Wire payload with `Valid`, `Locked`, `Count = 5`, `Dispersion = 3`,
reference time `(100 s, 0 ns)` (C2 scenario). -/
def c2Payload : List Nat :=
  [1, 1, 0, 5, 0, 0, 0, 0, 0, 0, 0, 3, 0, 0, 0, 0, 0, 0, 0, 100, 0, 0, 0, 0]

/-- 48-byte segment: length prefix 24 followed by `c2Payload`. -/
def c2Segment : List Nat := 0 :: 24 :: c2Payload ++ List.replicate 22 0

/-- Client whose last observation has the same count (5) as the published
record and time `(100 s, 0 ns)`. -/
def c2Cli : Client :=
  { last := ⟨5, ⟨100, 0, 7⟩⟩, resetRequired := false, mutex := true, data := true }

/-- Environment whose wall clock is 300000001 ns past the last observation. -/
def c2Env : Env :=
  { resetStep := .ok, waitErr := false, postErr := false, segment := c2Segment,
    nowSec := 100, nowNSec := 300000001, uct := fun n => n * 1000000 / 1000000000 }

/-- Same environment with the wall clock only 299000000 ns past the last
observation. -/
def c2EnvB : Env := { c2Env with nowNSec := 299000000 }

/-- Environment for C3: the segment's 2-byte length prefix is zero (publisher
has produced no data) and `mutex.Post` succeeds. -/
def c3Env : Env :=
  { resetStep := .ok, waitErr := false, postErr := false,
    segment := List.replicate 48 0,
    nowSec := 7, nowNSec := 8, uct := fun _ => 0 }

/-- Connected client for the C3 scenario. -/
def c3Cli : Client :=
  { last := ⟨0, ⟨0, 0, 0⟩⟩, resetRequired := false, mutex := true, data := true }

/-- Environment for the C4 witness: the semaphore reopen fails. -/
def c4Env : Env :=
  { resetStep := .semOpenFail, waitErr := false, postErr := false,
    segment := List.replicate 48 0, nowSec := 0, nowNSec := 0, uct := fun _ => 0 }

/-- Client in the reset-required state for the C4 witness. -/
def c4Cli : Client :=
  { last := ⟨0, ⟨0, 0, 0⟩⟩, resetRequired := true, mutex := true, data := true }

/-- Environment for the C9 counterexample: declared record length 47, so that
`2 + 47` exceeds the 48-byte buffer and the slice expression panics. -/
def c9Env : Env :=
  { resetStep := .ok, waitErr := false, postErr := false,
    segment := 0 :: 47 :: List.replicate 46 1,
    nowSec := 7, nowNSec := 8, uct := fun _ => 0 }

/-- Environment for the C9 witness: declared record length 10. -/
def c9EnvB : Env :=
  { resetStep := .ok, waitErr := false, postErr := false,
    segment := 0 :: 10 :: List.replicate 46 1,
    nowSec := 7, nowNSec := 8, uct := fun _ => 0 }

/-- Connected client for the C9 scenarios. -/
def c9Cli : Client :=
  { last := ⟨0, ⟨0, 0, 0⟩⟩, resetRequired := false, mutex := true, data := true }

/-- Environment for the C10 witness: `mutex.Wait` fails. -/
def c10Env : Env :=
  { resetStep := .ok, waitErr := true, postErr := false,
    segment := List.replicate 48 0, nowSec := 0, nowNSec := 0, uct := fun _ => 0 }

/-- Connected client for the C10 witness. -/
def c10Cli : Client :=
  { last := ⟨0, ⟨0, 0, 0⟩⟩, resetRequired := false, mutex := true, data := true }

/-! Helper lemmas. -/

/-- wrap64 is the identity on values already inside the int64 range. -/
theorem wrap64_eq_self (x : Int) (h1 : -9223372036854775808 ≤ x)
    (h2 : x < 9223372036854775808) : wrap64 x = x := by
  unfold wrap64; omega

/-- toInt64 is the identity on values below `2^63`. -/
theorem toInt64_of_lt (n : Nat) (h : n < 9223372036854775808) :
    toInt64 n = (n : Int) := by
  unfold toInt64 wrap64; omega

/-- The wrapped uint64 decrement `s - 1` reinterprets to the integer `s - 1`
for every `s` well below the int64 boundary, including `s = 0`. -/
theorem toInt64_decrement (s : Nat) (h : s < 4611686018427387904) :
    toInt64 ((s + 18446744073709551615) % 18446744073709551616) = (s : Int) - 1 := by
  unfold toInt64 wrap64; omega

/-- In the overflow-free range, `Sub` computes the exact signed nanosecond
difference of the two instants. -/
theorem UnixTime.sub_exact (a b : UnixTime)
    (ha1 : a.sec < 8589934592) (hb1 : b.sec < 8589934592)
    (ha2 : a.nsec < 1000000000) (hb2 : b.nsec < 1000000000) :
    a.Sub b = ((a.sec : Int) * 1000000000 + a.nsec) -
      ((b.sec : Int) * 1000000000 + b.nsec) := by
  unfold UnixTime.Sub
  by_cases h : b.nsec > a.nsec
  · rw [if_pos h, if_pos h]
    rw [Nat.mod_eq_of_lt (show a.nsec + 1000000000 < 4294967296 by omega)]
    dsimp only
    rw [toInt64_decrement a.sec (by omega), toInt64_of_lt b.sec (by omega)]
    rw [wrap64_eq_self ((a.sec : Int) - 1 - (b.sec : Int)) (by omega) (by omega)]
    rw [wrap64_eq_self (((a.sec : Int) - 1 - (b.sec : Int)) * 1000000000)
      (by omega) (by omega)]
    rw [wrap64_eq_self (((a.nsec + 1000000000 : Nat) : Int) - (b.nsec : Int))
      (by omega) (by omega)]
    rw [wrap64_eq_self _ (by push_cast; omega) (by push_cast; omega)]
    push_cast
    ring
  · rw [if_neg h, if_neg h]
    dsimp only
    rw [toInt64_of_lt a.sec (by omega), toInt64_of_lt b.sec (by omega)]
    rw [wrap64_eq_self ((a.sec : Int) - (b.sec : Int)) (by omega) (by omega)]
    rw [wrap64_eq_self (((a.sec : Int) - (b.sec : Int)) * 1000000000)
      (by omega) (by omega)]
    rw [wrap64_eq_self ((a.nsec : Int) - (b.nsec : Int)) (by omega) (by omega)]
    rw [wrap64_eq_self _ (by omega) (by omega)]
    ring

/-- C7 counterexample: at `a = (2^54 s, 0 ns)`, `b = (0, 0)` the scaled
difference `2^54 * 1e9` overflows int64 to `-2^63` in both directions, so
`a.Sub b` and `b.Sub a` are equal instead of opposite and antisymmetry fails
for these in-range uint64/uint32 field values. -/
theorem sub_antisymm_cex :
    UnixTime.Sub ⟨18014398509481984, 0, 0⟩ ⟨0, 0, 0⟩ = -9223372036854775808 ∧
    UnixTime.Sub ⟨0, 0, 0⟩ ⟨18014398509481984, 0, 0⟩ = -9223372036854775808 ∧
    UnixTime.Sub ⟨18014398509481984, 0, 0⟩ ⟨0, 0, 0⟩ ≠
      -UnixTime.Sub ⟨0, 0, 0⟩ ⟨18014398509481984, 0, 0⟩ := by
  refine ⟨by decide, by decide, by decide⟩

/-- C7 (amended): for operands whose seconds are below `2^33` and whose
nanosecond fields satisfy the declared `< 1e9` invariant, no intermediate
int64 operation overflows, `Sub` computes the exact difference (so the
borrow of one second is correct), and antisymmetry holds; the second-boundary
case `(1 s, 0 ns) - (0 s, 0 ns) = 1e9` is an instance. -/
theorem sub_antisymm (a b : UnixTime)
    (ha1 : a.sec < 8589934592) (hb1 : b.sec < 8589934592)
    (ha2 : a.nsec < 1000000000) (hb2 : b.nsec < 1000000000) :
    a.Sub b = -b.Sub a ∧
    a.Sub b = ((a.sec : Int) * 1000000000 + a.nsec) -
      ((b.sec : Int) * 1000000000 + b.nsec) := by
  have h1 := UnixTime.sub_exact a b ha1 hb1 ha2 hb2
  have h2 := UnixTime.sub_exact b a hb1 ha1 hb2 ha2
  exact ⟨by rw [h1, h2]; ring, h1⟩

/-- C7 witness: antisymmetry at `(1 s, 0 ns)`, `(0 s, 0 ns)` together with
the second-boundary value `1e9`, and at `(1 s, 200 ns)`, `(1 s, 0 ns)`. -/
theorem sub_antisymm_witness :
    UnixTime.Sub ⟨1, 0, 0⟩ ⟨0, 0, 0⟩ = -UnixTime.Sub ⟨0, 0, 0⟩ ⟨1, 0, 0⟩ ∧
    UnixTime.Sub ⟨1, 0, 0⟩ ⟨0, 0, 0⟩ = 1000000000 ∧
    UnixTime.Sub ⟨1, 200, 0⟩ ⟨1, 0, 0⟩ = -UnixTime.Sub ⟨1, 0, 0⟩ ⟨1, 200, 0⟩ := by
  have h := sub_antisymm ⟨1, 0, 0⟩ ⟨0, 0, 0⟩ (by decide) (by decide) (by decide) (by decide)
  have h2 := sub_antisymm ⟨1, 200, 0⟩ ⟨1, 0, 0⟩ (by decide) (by decide) (by decide) (by decide)
  refine ⟨h.1, ?_, h2.1⟩
  rw [h.2]; decide

/-- C8: under the documented no-underflow/no-overflow precondition, `Bounds`
returns the exact nanosecond interval around the instant. -/
theorem bounds_eq (t : UnixTime)
    (h1 : t.dispersion ≤ t.sec * 1000000000 + t.nsec)
    (h2 : t.sec * 1000000000 + t.nsec + t.dispersion < 18446744073709551616) :
    t.Bounds = (t.sec * 1000000000 + t.nsec - t.dispersion,
                t.sec * 1000000000 + t.nsec + t.dispersion) := by
  unfold UnixTime.Bounds
  dsimp only
  rw [Prod.mk.injEq]
  constructor <;> omega

/-- C8 witness: the spec's concrete example. -/
theorem bounds_eq_witness :
    UnixTime.Bounds ⟨2, 100200, 8⟩ = (2000100192, 2000100208) := by
  have h := bounds_eq ⟨2, 100200, 8⟩ (by decide) (by decide)
  rw [h]; decide

/-- Length of a big-endian encoding. -/
theorem beBytes_length (k v : Nat) : (beBytes k v).length = k := by
  induction k with
  | zero => rfl
  | succ k ih => simp [beBytes, ih]

/-- Folding the big-endian decoder over an encoding accumulates the value. -/
theorem beVal_foldl (k v : Nat) : ∀ a : Nat,
    List.foldl (fun x b => x * 256 + b) a (beBytes k v) = a * 256 ^ k + v % 256 ^ k := by
  induction k with
  | zero => intro a; simp [beBytes, Nat.mod_one]
  | succ k ih =>
    intro a
    simp only [beBytes, List.foldl_cons]
    rw [ih]
    have hp : (256 : Nat) ^ (k + 1) = 256 ^ k * 256 := by ring
    rw [hp, Nat.mod_mul]
    ring

/-- Decoding a big-endian encoding recovers the value. -/
theorem beVal_beBytes (k v : Nat) (h : v < 256 ^ k) : beVal (beBytes k v) = v := by
  unfold beVal
  rw [beVal_foldl]
  simp [Nat.mod_eq_of_lt h]

/-- C6: encoding a record with in-range fields produces exactly 24 bytes that
decode back to the record; `Marshal` fails (panics) on a destination buffer
shorter than 24 bytes, and `UnmarshalClientInfo` fails (panics) on any input
whose length is not 24. -/
theorem marshal_roundtrip (c : ClientInfo) (buf : List Nat)
    (hc : c.count < 65536) (hd : c.dispersion < 18446744073709551616)
    (hs : c.sec < 18446744073709551616) (hn : c.nsec < 4294967296) :
    (24 ≤ buf.length →
      ∃ out, c.Marshal buf = some out ∧ out.length = 24 ∧
        UnmarshalClientInfo out = some c) ∧
    (buf.length < 24 → c.Marshal buf = none) ∧
    (∀ data : List Nat, data.length ≠ 24 → UnmarshalClientInfo data = none) := by
  refine ⟨?_, ?_, ?_⟩
  · intro hlen
    rcases c with ⟨cv, cl, cc, cd, cs, cn⟩
    simp only at hc hd hs hn
    refine ⟨(if cv then 1 else 0) :: (if cl then 1 else 0) ::
      (beBytes 2 cc ++ (beBytes 8 cd ++ (beBytes 8 cs ++ beBytes 4 cn))), ?_, ?_, ?_⟩
    · unfold ClientInfo.Marshal
      rw [if_neg (by omega)]
    · simp [beBytes_length]
    · have hfull : ((if cv then 1 else 0) :: (if cl then 1 else 0) ::
          (beBytes 2 cc ++ (beBytes 8 cd ++ (beBytes 8 cs ++ beBytes 4 cn)))).length = 24 := by
        simp [beBytes_length]
      unfold UnmarshalClientInfo
      rw [if_pos hfull]
      have h2 : ((if cv then 1 else 0) :: (if cl then 1 else 0) ::
          (beBytes 2 cc ++ (beBytes 8 cd ++ (beBytes 8 cs ++ beBytes 4 cn)))).drop 2 =
          beBytes 2 cc ++ (beBytes 8 cd ++ (beBytes 8 cs ++ beBytes 4 cn)) := rfl
      have h4 : ((if cv then 1 else 0) :: (if cl then 1 else 0) ::
          (beBytes 2 cc ++ (beBytes 8 cd ++ (beBytes 8 cs ++ beBytes 4 cn)))).drop 4 =
          beBytes 8 cd ++ (beBytes 8 cs ++ beBytes 4 cn) := by
        show (beBytes 2 cc ++ (beBytes 8 cd ++ (beBytes 8 cs ++ beBytes 4 cn))).drop 2 = _
        exact List.drop_left' (beBytes_length 2 cc)
      have h12 : ((if cv then 1 else 0) :: (if cl then 1 else 0) ::
          (beBytes 2 cc ++ (beBytes 8 cd ++ (beBytes 8 cs ++ beBytes 4 cn)))).drop 12 =
          beBytes 8 cs ++ beBytes 4 cn := by
        have e : List.drop 8 (((if cv then 1 else 0) :: (if cl then 1 else 0) ::
            (beBytes 2 cc ++ (beBytes 8 cd ++ (beBytes 8 cs ++ beBytes 4 cn)))).drop 4) =
            ((if cv then 1 else 0) :: (if cl then 1 else 0) ::
            (beBytes 2 cc ++ (beBytes 8 cd ++ (beBytes 8 cs ++ beBytes 4 cn)))).drop 12 := by
          rw [List.drop_drop]
        rw [← e, h4]
        exact List.drop_left' (beBytes_length 8 cd)
      have h20 : ((if cv then 1 else 0) :: (if cl then 1 else 0) ::
          (beBytes 2 cc ++ (beBytes 8 cd ++ (beBytes 8 cs ++ beBytes 4 cn)))).drop 20 =
          beBytes 4 cn := by
        have e : List.drop 8 (((if cv then 1 else 0) :: (if cl then 1 else 0) ::
            (beBytes 2 cc ++ (beBytes 8 cd ++ (beBytes 8 cs ++ beBytes 4 cn)))).drop 12) =
            ((if cv then 1 else 0) :: (if cl then 1 else 0) ::
            (beBytes 2 cc ++ (beBytes 8 cd ++ (beBytes 8 cs ++ beBytes 4 cn)))).drop 20 := by
          rw [List.drop_drop]
        rw [← e, h12]
        exact List.drop_left' (beBytes_length 8 cs)
      simp only [Option.some.injEq, ClientInfo.mk.injEq]
      refine ⟨?_, ?_, ?_, ?_, ?_, ?_⟩
      · cases cv <;> simp [List.getD]
      · cases cl <;> simp [List.getD]
      · rw [h2, List.take_left' (beBytes_length 2 cc)]
        exact beVal_beBytes 2 cc (lt_of_lt_of_le hc (by norm_num))
      · rw [h4, List.take_left' (beBytes_length 8 cd)]
        exact beVal_beBytes 8 cd (lt_of_lt_of_le hd (by norm_num))
      · rw [h12, List.take_left' (beBytes_length 8 cs)]
        exact beVal_beBytes 8 cs (lt_of_lt_of_le hs (by norm_num))
      · rw [h20, List.take_of_length_le (by rw [beBytes_length])]
        exact beVal_beBytes 4 cn (lt_of_lt_of_le hn (by norm_num))
  · intro h
    unfold ClientInfo.Marshal
    rw [if_pos h]
  · intro data hne
    unfold UnmarshalClientInfo
    rw [if_neg hne]

/-- C6 witness: round trip of a concrete record, `Marshal` on a 2-byte buffer,
and `UnmarshalClientInfo` on a 2-byte input. -/
theorem marshal_roundtrip_witness :
    (∃ out, ClientInfo.Marshal ⟨true, true, 5, 3, 100, 200⟩ (List.replicate 24 0) = some out ∧
      out.length = 24 ∧ UnmarshalClientInfo out = some ⟨true, true, 5, 3, 100, 200⟩) ∧
    ClientInfo.Marshal ⟨true, true, 5, 3, 100, 200⟩ [0, 0] = none ∧
    UnmarshalClientInfo [1, 1] = none := by
  have h := marshal_roundtrip ⟨true, true, 5, 3, 100, 200⟩ (List.replicate 24 0)
    (by decide) (by decide) (by decide) (by decide)
  have h2 := marshal_roundtrip ⟨true, true, 5, 3, 100, 200⟩ [0, 0]
    (by decide) (by decide) (by decide) (by decide)
  exact ⟨h.1 (by decide), h2.2.1 (by decide), h.2.2 [1, 1] (by decide)⟩


/-! Reduction lemmas for the read protocol, one per decision point. -/

/-- tryReset is the identity when no reset is required. -/
theorem tryReset_not_required (env : Env) (c : Client)
    (h : c.resetRequired = false) : c.tryReset env = (none, c) := by
  unfold Client.tryReset
  rw [h]
  simp

/-- read propagates a tryReset failure without touching the segment. -/
theorem read_resetFail (env : Env) (c c1 : Client) (e : GoError)
    (h : c.tryReset env = (some e, c1)) : c.read env = (.fail e, c1) := by
  unfold Client.read
  rw [h]

/-- read runs the critical section after a successful tryReset. -/
theorem read_afterReset (env : Env) (c c1 : Client)
    (h : c.tryReset env = (none, c1)) : c.read env = c1.criticalRead env := by
  unfold Client.read
  rw [h]

/-- Critical section: `mutex.Wait` failure. -/
theorem criticalRead_waitErr (env : Env) (c1 : Client)
    (hw : env.waitErr = true) : c1.criticalRead env = (.fail (.ipc 3), c1) := by
  unfold Client.criticalRead
  rw [hw]
  simp

/-- Critical section: zero length prefix with a succeeding `Post` returns a
nil payload and a NIL error (the deferred `err = c.mutex.Post()` clobbers
`ErrNotReady`). -/
theorem criticalRead_zero (env : Env) (c1 : Client)
    (hw : env.waitErr = false) (hlen : segmentDatalen env.segment = 0)
    (hp : env.postErr = false) : c1.criticalRead env = (.ok [] 0 0, c1) := by
  unfold Client.criticalRead
  rw [hw, hlen, hp]
  simp

/-- Critical section: nonzero in-bounds length with succeeding `Post` returns
the payload slice and the clock snapshot. -/
theorem criticalRead_ok (env : Env) (c1 : Client) (n : Nat)
    (hw : env.waitErr = false) (hlen : segmentDatalen env.segment = n)
    (hn : n ≠ 0) (hbound : 2 + n ≤ 48) (hp : env.postErr = false) :
    c1.criticalRead env =
      (.ok ((env.segment.drop 2).take n) env.nowSec env.nowNSec, c1) := by
  unfold Client.criticalRead
  rw [hw, hlen, hp, if_neg (by decide), if_neg hn, if_pos hbound]
  simp

/-- Critical section: declared length past the 48-byte buffer makes the slice
expression panic. -/
theorem criticalRead_slicePanic (env : Env) (c1 : Client) (n : Nat)
    (hw : env.waitErr = false) (hlen : segmentDatalen env.segment = n)
    (hn : n ≠ 0) (hbound : ¬2 + n ≤ 48) :
    c1.criticalRead env = (.panic "slice bounds out of range", c1) := by
  unfold Client.criticalRead
  rw [hw, hlen, if_neg (by decide), if_neg hn, if_neg hbound]

/-- GetUnixTime propagates a read panic. -/
theorem getUnixTime_after_panic (env : Env) (c c1 : Client) (m : String)
    (hread : c.read env = (.panic m, c1)) :
    Client.GetUnixTime env c = (.panic m, c1) := by
  unfold Client.GetUnixTime
  rw [hread]

/-- GetUnixTime returns the zero time, the read error and sets
`resetRequired` on a read failure. -/
theorem getUnixTime_after_fail (env : Env) (c c1 : Client) (e : GoError)
    (hread : c.read env = (.fail e, c1)) :
    Client.GetUnixTime env c =
      (.ret ⟨0, 0, 0⟩ (some e), { c1 with resetRequired := true }) := by
  unfold Client.GetUnixTime
  rw [hread]

/-- GetUnixTime continues with the decode step on a successful read. -/
theorem getUnixTime_after_ok (env : Env) (c c1 : Client) (data : List Nat)
    (sec nsec : Nat) (hread : c.read env = (.ok data sec nsec, c1)) :
    Client.GetUnixTime env c = c1.decodeStep env data sec nsec := by
  unfold Client.GetUnixTime
  rw [hread]

/-- A payload the decoder rejects makes GetUnixTime panic. -/
theorem decodeStep_none (env : Env) (c1 : Client) (data : List Nat)
    (sec nsec : Nat) (hinfo : UnmarshalClientInfo data = none) :
    c1.decodeStep env data sec nsec = (.panic "invalid input", c1) := by
  unfold Client.decodeStep
  rw [hinfo]

/-- A decoded record moves on to the validity check. -/
theorem decodeStep_some (env : Env) (c1 : Client) (data : List Nat)
    (sec nsec : Nat) (info : ClientInfo)
    (hinfo : UnmarshalClientInfo data = some info) :
    c1.decodeStep env data sec nsec = c1.validStep env sec nsec info := by
  unfold Client.decodeStep
  rw [hinfo]

/-- A valid and locked record moves on to the dispersion computation. -/
theorem validStep_ok (env : Env) (c1 : Client) (sec nsec : Nat)
    (info : ClientInfo) (hv : info.valid = true) (hl : info.locked = true) :
    c1.validStep env sec nsec info =
      c1.dispersionStep sec nsec info (getDispersion env.uct info sec nsec) := by
  unfold Client.validStep
  rw [hv, hl]
  simp

/-- A record that is not valid or not locked yields `ErrNotReady` and sets
`resetRequired`. -/
theorem validStep_bad (env : Env) (c1 : Client) (sec nsec : Nat)
    (info : ClientInfo) (hvl : (!info.valid || !info.locked) = true) :
    c1.validStep env sec nsec info =
      (.ret ⟨0, 0, 0⟩ (some .notReady), { c1 with resetRequired := true }) := by
  unfold Client.validStep
  rw [hvl]
  simp

/-- A getDispersion panic propagates. -/
theorem dispersionStep_none (c1 : Client) (sec nsec : Nat) (info : ClientInfo) :
    c1.dispersionStep sec nsec info none =
      (.panic "invalid client info and clock time", c1) := rfl

/-- A computed dispersion moves on to the staleness check. -/
theorem dispersionStep_some (c1 : Client) (sec nsec : Nat) (info : ClientInfo)
    (d : Nat) :
    c1.dispersionStep sec nsec info (some d) = c1.staleStep sec nsec info d := rfl

/-- Unfolding of the staleness predicate. -/
theorem updateStaled_iff (c : Client) (ut : UnixTime) (count : Nat) :
    c.updateStaled ut count = true ↔
      (c.last.count = count ∧ c.last.time.IsEmpty = false ∧
        ut.Sub c.last.time > 300000000) := by
  unfold Client.updateStaled staleThresholdNanoseconds
  by_cases h1 : c.last.count = count
  · by_cases h2 : c.last.time.IsEmpty
    · simp [h1, h2]
    · simp [h1, h2]
  · simp [h1]

/-- C2: given a successful raw read, a decoded record with both flags set and
a computed dispersion, `GetUnixTime` fails with `ErrStopped` and sets
`resetRequired` exactly when the record's count equals the last observed
count, a prior sample exists (the last observed time is not empty), and the
new derived time exceeds the last observed time by more than 300000000 ns. -/
theorem getUnixTime_stopped_iff (env : Env) (c : Client) (data : List Nat)
    (sec nsec : Nat) (c1 : Client) (info : ClientInfo) (d : Nat)
    (hread : c.read env = (.ok data sec nsec, c1))
    (hinfo : UnmarshalClientInfo data = some info)
    (hv : info.valid = true) (hl : info.locked = true)
    (hd : getDispersion env.uct info sec nsec = some d) :
    (Client.GetUnixTime env c =
        (.ret ⟨0, 0, 0⟩ (some .stopped), { c1 with resetRequired := true })) ↔
      (c1.last.count = info.count ∧ c1.last.time.IsEmpty = false ∧
        UnixTime.Sub ⟨sec, nsec, d⟩ c1.last.time > 300000000) := by
  rw [getUnixTime_after_ok env c c1 data sec nsec hread,
    decodeStep_some env c1 data sec nsec info hinfo,
    validStep_ok env c1 sec nsec info hv hl, hd,
    dispersionStep_some c1 sec nsec info d]
  unfold Client.staleStep
  rw [← updateStaled_iff c1 ⟨sec, nsec, d⟩ info.count]
  cases hst : c1.updateStaled ⟨sec, nsec, d⟩ info.count
  · simp only [Bool.false_eq_true, if_false]
    constructor
    · intro hEq
      exfalso
      by_cases hcnt : c1.last.count ≠ info.count
      · rw [if_pos hcnt] at hEq
        simp at hEq
      · rw [if_neg hcnt] at hEq
        simp at hEq
    · intro hEq
      simp at hEq
  · simp

/-- C2 witness: with the published count equal to the last observed count, a
gap of 300000001 ns yields `ErrStopped` and sets `resetRequired`, while a gap
of 299000000 ns returns the derived time without error. -/
theorem getUnixTime_stopped_iff_witness :
    Client.GetUnixTime c2Env c2Cli =
      (.ret ⟨0, 0, 0⟩ (some .stopped), { c2Cli with resetRequired := true }) ∧
    Client.GetUnixTime c2EnvB c2Cli =
      (.ret ⟨100, 299000000, 299003⟩ none, c2Cli) := by
  constructor
  · exact (getUnixTime_stopped_iff c2Env c2Cli c2Payload 100 300000001 c2Cli
      ⟨true, true, 5, 3, 100, 0⟩ 300003 (by decide) (by decide) rfl rfl
      (by decide)).mpr (by decide)
  · decide

/-- C3 (evaluation of the failing input): with a zero length prefix and a
succeeding `mutex.Post`, the deferred `err = c.mutex.Post()` in `read`
overwrites the returned `ErrNotReady` with nil, so `GetUnixTime` receives a
nil payload with a nil error and panics inside `UnmarshalClientInfo` instead
of returning `ErrNotReady` and leaving `resetRequired` clear. -/
theorem zero_length_prefix_panics :
    Client.GetUnixTime c3Env c3Cli = (.panic "invalid input", c3Cli) := by
  decide

/-- A failing reset leaves both handles nil: `Close` tears them down first
and they are reassigned only when every acquisition step succeeded. -/
theorem reset_fail_eq (env : Env) (c0 : Client) (h2 : env.resetStep ≠ IpcStep.ok) :
    ∃ e : GoError, reset env c0 = (some e, { c0 with mutex := false, data := false }) := by
  cases hstep : env.resetStep
  case ok => exact absurd hstep h2
  case semOpenFail => exact ⟨.ipc 0, by unfold reset; rw [hstep]⟩
  case shmGetFail => exact ⟨.ipc 1, by unfold reset; rw [hstep]⟩
  case shmAtFail => exact ⟨.ipc 2, by unfold reset; rw [hstep]⟩

/-- tryReset on a reset-required client propagates a reset failure and sets
the flag again. -/
theorem tryReset_fail (env : Env) (c : Client) (e : GoError) (c2 : Client)
    (h1 : c.resetRequired = true)
    (hres : reset env { c with resetRequired := false } = (some e, c2)) :
    c.tryReset env = (some e, { c2 with resetRequired := true }) := by
  unfold Client.tryReset
  rw [h1, if_pos rfl, hres]

/-- C4: when the client is in the reset-required state and reconnection
fails, the error of the failing `reset` step is propagated, the
reset-required flag remains set, and both IPC handles are left nil, never a
partially replaced set; the stated equality holds for every segment content,
clock value and semaphore behaviour, so no read of the segment is
attempted. -/
theorem reset_failure_no_read (env : Env) (c : Client)
    (h1 : c.resetRequired = true) (h2 : env.resetStep ≠ IpcStep.ok) :
    ∃ e : GoError,
      reset env { c with resetRequired := false } =
        (some e, { c with resetRequired := false, mutex := false, data := false }) ∧
      Client.GetUnixTime env c =
        (.ret ⟨0, 0, 0⟩ (some e),
          { c with resetRequired := true, mutex := false, data := false }) := by
  obtain ⟨e, hres⟩ := reset_fail_eq env { c with resetRequired := false } h2
  refine ⟨e, hres, ?_⟩
  have htr := tryReset_fail env c e _ h1 hres
  rw [getUnixTime_after_fail env c _ e (read_resetFail env c _ e htr)]

/-- C4 witness: a reset-required client whose semaphore reopen fails. -/
theorem reset_failure_no_read_witness :
    ∃ e : GoError,
      reset c4Env { c4Cli with resetRequired := false } =
        (some e, { c4Cli with resetRequired := false, mutex := false, data := false }) ∧
      Client.GetUnixTime c4Env c4Cli =
        (.ret ⟨0, 0, 0⟩ (some e),
          { c4Cli with resetRequired := true, mutex := false, data := false }) :=
  reset_failure_no_read c4Env c4Cli rfl (by decide)

/-- C9 (amended): when the declared record length `n` is nonzero, not 24, and
small enough that the payload slice `buf[2 : 2+n]` stays within the 48-byte
buffer (`n ≤ 46`), the read hands exactly `n` payload bytes to
`UnmarshalClientInfo`, which panics with its invalid-input message; no typed
failure is returned. -/
theorem bad_length_decoder_panics (env : Env) (c : Client) (n : Nat)
    (hn1 : 1 ≤ n) (hn2 : n ≤ 46) (hn24 : n ≠ 24)
    (hlen : segmentDatalen env.segment = n)
    (hseg : env.segment.length = 48)
    (hreset : c.resetRequired = false)
    (hwait : env.waitErr = false) (hpost : env.postErr = false) :
    Client.GetUnixTime env c = (.panic "invalid input", c) := by
  have hread : c.read env =
      (.ok ((env.segment.drop 2).take n) env.nowSec env.nowNSec, c) := by
    rw [read_afterReset env c c (tryReset_not_required env c hreset),
      criticalRead_ok env c n hwait hlen (by omega) (by omega) hpost]
  have hum : UnmarshalClientInfo ((env.segment.drop 2).take n) = none := by
    have hpay : ((env.segment.drop 2).take n).length = n := by
      rw [List.length_take, List.length_drop, hseg]
      omega
    unfold UnmarshalClientInfo
    rw [if_neg (by rw [hpay]; exact hn24)]
  rw [getUnixTime_after_ok env c c ((env.segment.drop 2).take n)
    env.nowSec env.nowNSec hread,
    decodeStep_none env c ((env.segment.drop 2).take n) env.nowSec env.nowNSec hum]

/-- C9 witness: declared length 10 makes `GetUnixTime` panic inside the
decoder. -/
theorem bad_length_decoder_panics_witness :
    Client.GetUnixTime c9EnvB c9Cli = (.panic "invalid input", c9Cli) :=
  bad_length_decoder_panics c9EnvB c9Cli 10 (by decide) (by decide) (by decide)
    (by decide) (by decide) rfl rfl rfl

/-- C9 counterexample: at declared length 47 (nonzero and not 24) the panic
happens at the slice expression `c.buf[2 : 2+datalen]` inside `read`, before
any bytes reach `UnmarshalClientInfo`, so the claim's description of the
abort site is wrong for this input. -/
theorem large_length_slice_panic_cex :
    Client.GetUnixTime c9Env c9Cli = (.panic "slice bounds out of range", c9Cli) ∧
    (Client.GetUnixTime c9Env c9Cli).1 ≠ Outcome.panic "invalid input" := by
  refine ⟨by decide, by decide⟩

/-- C10: whenever `GetUnixTime` returns a non-nil error, the `UnixTime`
returned alongside is the zero value, which `IsEmpty` reports as empty. -/
theorem error_returns_empty_time (env : Env) (c : Client) (t : UnixTime)
    (e : GoError) (c2 : Client)
    (h : Client.GetUnixTime env c = (.ret t (some e), c2)) :
    t = ⟨0, 0, 0⟩ ∧ t.IsEmpty = true := by
  have ht : t = ⟨0, 0, 0⟩ := by
    rcases hr : c.read env with ⟨ro, c1⟩
    cases ro with
    | panic m =>
      rw [getUnixTime_after_panic env c c1 m hr] at h
      exact absurd h (by simp)
    | fail e1 =>
      rw [getUnixTime_after_fail env c c1 e1 hr] at h
      simp only [Prod.mk.injEq, Outcome.ret.injEq] at h
      exact h.1.1.symm
    | ok data sec nsec =>
      rw [getUnixTime_after_ok env c c1 data sec nsec hr] at h
      cases hu : UnmarshalClientInfo data with
      | none =>
        rw [decodeStep_none env c1 data sec nsec hu] at h
        exact absurd h (by simp)
      | some info =>
        rw [decodeStep_some env c1 data sec nsec info hu] at h
        cases hvv : info.valid with
        | false =>
          rw [validStep_bad env c1 sec nsec info (by rw [hvv]; rfl)] at h
          simp only [Prod.mk.injEq, Outcome.ret.injEq] at h
          exact h.1.1.symm
        | true =>
          cases hll : info.locked with
          | false =>
            rw [validStep_bad env c1 sec nsec info (by rw [hvv, hll]; rfl)] at h
            simp only [Prod.mk.injEq, Outcome.ret.injEq] at h
            exact h.1.1.symm
          | true =>
            rw [validStep_ok env c1 sec nsec info hvv hll] at h
            cases hd : getDispersion env.uct info sec nsec with
            | none =>
              rw [hd, dispersionStep_none] at h
              exact absurd h (by simp)
            | some d =>
              rw [hd, dispersionStep_some] at h
              unfold Client.staleStep at h
              by_cases hst : c1.updateStaled ⟨sec, nsec, d⟩ info.count = true
              · rw [if_pos hst] at h
                simp only [Prod.mk.injEq, Outcome.ret.injEq] at h
                exact h.1.1.symm
              · rw [if_neg hst] at h
                by_cases hcnt : c1.last.count ≠ info.count
                · rw [if_pos hcnt] at h
                  exact absurd h (by simp)
                · rw [if_neg hcnt] at h
                  exact absurd h (by simp)
  exact ⟨ht, by rw [ht]; rfl⟩

/-- C10 witness: a failing `mutex.Wait` makes `GetUnixTime` return an error
together with the empty zero time. -/
theorem error_returns_empty_time_witness :
    (⟨0, 0, 0⟩ : UnixTime) = ⟨0, 0, 0⟩ ∧
      UnixTime.IsEmpty ⟨0, 0, 0⟩ = true :=
  error_returns_empty_time c10Env c10Cli ⟨0, 0, 0⟩ (.ipc 3)
    { c10Cli with resetRequired := true } (by decide)

/-- C1 (amended): every error-free `GetUnixTime` result comes from a raw read
whose decoded record had both `Valid` and `Locked` true, its `Sec`/`NSec` are
the local snapshot, the elapsed time since the record's reference instant is
non-negative, and its `Dispersion` is the record's dispersion plus the clock
uncertainty of the elapsed time MODULO `2^64` (uint64 addition); whenever
that sum does not overflow uint64 the returned dispersion is at least the
record's own dispersion. -/
theorem getUnixTime_ok_dispersion (env : Env) (c : Client) (ut : UnixTime)
    (c2 : Client) (h : Client.GetUnixTime env c = (.ret ut none, c2)) :
    ∃ data c1 info,
      c.read env = (.ok data ut.sec ut.nsec, c1) ∧
      UnmarshalClientInfo data = some info ∧
      info.valid = true ∧ info.locked = true ∧
      0 ≤ UnixTime.Sub ⟨ut.sec, ut.nsec, 0⟩ ⟨info.sec, info.nsec, 0⟩ ∧
      ut.dispersion = (info.dispersion +
          env.uct (UnixTime.Sub ⟨ut.sec, ut.nsec, 0⟩ ⟨info.sec, info.nsec, 0⟩).toNat) %
        18446744073709551616 ∧
      (info.dispersion +
          env.uct (UnixTime.Sub ⟨ut.sec, ut.nsec, 0⟩ ⟨info.sec, info.nsec, 0⟩).toNat <
          18446744073709551616 →
        info.dispersion ≤ ut.dispersion) := by
  rcases hr : c.read env with ⟨ro, c1⟩
  cases ro with
  | panic m =>
    rw [getUnixTime_after_panic env c c1 m hr] at h
    exact absurd h (by simp)
  | fail e1 =>
    rw [getUnixTime_after_fail env c c1 e1 hr] at h
    exact absurd h (by simp)
  | ok data sec nsec =>
    rw [getUnixTime_after_ok env c c1 data sec nsec hr] at h
    cases hu : UnmarshalClientInfo data with
    | none =>
      rw [decodeStep_none env c1 data sec nsec hu] at h
      exact absurd h (by simp)
    | some info =>
      rw [decodeStep_some env c1 data sec nsec info hu] at h
      cases hvv : info.valid with
      | false =>
        rw [validStep_bad env c1 sec nsec info (by rw [hvv]; rfl)] at h
        exact absurd h (by simp)
      | true =>
        cases hll : info.locked with
        | false =>
          rw [validStep_bad env c1 sec nsec info (by rw [hvv, hll]; rfl)] at h
          exact absurd h (by simp)
        | true =>
          rw [validStep_ok env c1 sec nsec info hvv hll] at h
          cases hd : getDispersion env.uct info sec nsec with
          | none =>
            rw [hd, dispersionStep_none] at h
            exact absurd h (by simp)
          | some d =>
            rw [hd, dispersionStep_some] at h
            have hgd := hd
            unfold getDispersion at hgd
            by_cases hns : UnixTime.Sub ⟨sec, nsec, 0⟩ ⟨info.sec, info.nsec, 0⟩ < 0
            · rw [if_pos hns] at hgd
              exact absurd hgd (by simp)
            · rw [if_neg hns] at hgd
              simp only [Option.some.injEq] at hgd
              unfold Client.staleStep at h
              by_cases hst : c1.updateStaled ⟨sec, nsec, d⟩ info.count = true
              · rw [if_pos hst] at h
                exact absurd h (by simp)
              · rw [if_neg hst] at h
                have hut : Outcome.ret ⟨sec, nsec, d⟩ none = Outcome.ret ut none := by
                  by_cases hcnt : c1.last.count ≠ info.count
                  · rw [if_pos hcnt] at h
                    exact congrArg Prod.fst h
                  · rw [if_neg hcnt] at h
                    exact congrArg Prod.fst h
                simp only [Outcome.ret.injEq] at hut
                obtain ⟨hut1, -⟩ := hut
                subst hut1
                refine ⟨data, c1, info, ?_, hu, hvv, hll, ?_, ?_, ?_⟩
                · rfl
                · show 0 ≤ UnixTime.Sub ⟨sec, nsec, 0⟩ ⟨info.sec, info.nsec, 0⟩
                  exact not_lt.mp hns
                · show d = (info.dispersion +
                      env.uct (UnixTime.Sub ⟨sec, nsec, 0⟩
                        ⟨info.sec, info.nsec, 0⟩).toNat) % 18446744073709551616
                  exact hgd.symm
                · intro hlt
                  have hlt2 : info.dispersion +
                      env.uct (UnixTime.Sub ⟨sec, nsec, 0⟩
                        ⟨info.sec, info.nsec, 0⟩).toNat < 18446744073709551616 := hlt
                  have hmod := Nat.mod_eq_of_lt hlt2
                  show info.dispersion ≤ d
                  omega

/-- C1 witness: a healthy record with dispersion 3 read 1000 ns after its
reference instant yields dispersion 3 + 1. -/
theorem getUnixTime_ok_dispersion_witness :
    ∃ data c1 info,
      c1WCli.read c1WEnv = (.ok data 100 1000, c1) ∧
      UnmarshalClientInfo data = some info ∧
      info.valid = true ∧ info.locked = true ∧
      0 ≤ UnixTime.Sub ⟨100, 1000, 0⟩ ⟨info.sec, info.nsec, 0⟩ ∧
      (4 : Nat) = (info.dispersion +
          c1WEnv.uct (UnixTime.Sub ⟨100, 1000, 0⟩ ⟨info.sec, info.nsec, 0⟩).toNat) %
        18446744073709551616 ∧
      (info.dispersion +
          c1WEnv.uct (UnixTime.Sub ⟨100, 1000, 0⟩ ⟨info.sec, info.nsec, 0⟩).toNat <
          18446744073709551616 →
        info.dispersion ≤ 4) :=
  getUnixTime_ok_dispersion c1WEnv c1WCli ⟨100, 1000, 4⟩
    { c1WCli with last := ⟨5, ⟨100, 1000, 4⟩⟩ } (by decide)

/-- C1 counterexample: a record whose stated dispersion is `2^64 - 1` is
returned without error 1000 ns later with dispersion 0: the uint64 sum
`record.Dispersion + GetClockUncertainty(1000)` wraps, so the returned
dispersion is BELOW the record's own stated dispersion.  (At elapsed 1000 ns
the source's float64 computation yields exactly 1, as the oracle does here.) -/
theorem dispersion_overflow_cex :
    Client.GetUnixTime c1Env c1Cli =
      (.ret ⟨100, 1000, 0⟩ none, { c1Cli with last := ⟨1, ⟨100, 1000, 0⟩⟩ }) ∧
    UnmarshalClientInfo c1Payload =
      some ⟨true, true, 1, 18446744073709551615, 100, 0⟩ ∧
    (0 : Nat) < 18446744073709551615 := by
  refine ⟨by decide, by decide, by decide⟩
